import Mathlib

/-!
Verification of the DALPy test-utilities module (cormen_lib/test_utils.py)
against its specification.

Shallow embedding conventions used throughout this file:

* A DALPy Queue is modelled by the list of its buffer with the FRONT at the
  head: dequeue removes the head, enqueue appends at the end (matching
  buf.pop(0) and buf.append(v) in queues.py).
* A DALPy Stack is modelled by the list of its buffer with the TOP at the
  head: push conses, pop removes the head (the Python buffer in stacks.py
  appends and pops at the right end; we store it reversed, which is a pure
  change of coordinates).
* Python == on container elements is abstracted by an explicit Boolean
  function called pyEq or beq; the source expression a != b is modelled as
  the Boolean negation of that function.
* Fallible operations (QueueUnderflowError, StackUnderflowError) are
  modelled by Option: a result of Option.none means the corresponding
  underflow exception escapes.
* Mutation is modelled by explicit state passing: a function that mutates a
  queue or stack returns the post-call buffer(s) alongside its result.
-/

namespace DALPy

/-! ## Queue equality (test_utils.__queue_equals)

Python source:

    def __queue_equals(expected, actual):
        for _ in range(expected.size()):
            expected_elem = expected.dequeue()
            actual_elem = actual.dequeue()
            if expected_elem != actual_elem: return False
            expected.enqueue(expected_elem)
            actual.enqueue(actual_elem)
        return expected.size() == actual.size()

The loop bound range(expected.size()) is evaluated once, before the loop
body runs, so it is the initial length of the expected queue. -/

/-- The loop of queue_equals when expected and actual are DISTINCT queue
objects.  The first argument is the remaining iteration count; the two lists
are the current buffers.  On a mismatch the function returns with the two
dequeued elements dropped (the source returns before re-enqueueing them).
An underflow escaping is Option.none. -/
def queueEqualsLoop (beq : α → α → Bool) :
    ℕ → List α → List α → Option (Bool × List α × List α)
  | 0, e, a => some (decide (e.length = a.length), e, a)
  | _ + 1, [], _ => Option.none
  | _ + 1, _ :: _, [] => Option.none
  | k + 1, x :: e, y :: a =>
    if !(beq x y) then some (false, e, a)
    else queueEqualsLoop beq k (e ++ [x]) (a ++ [y])

/-- test_utils.__queue_equals on two distinct Queue objects, returning the
result together with the final buffers of both operands. -/
def queue_equals (beq : α → α → Bool) (e a : List α) :
    Option (Bool × List α × List α) :=
  queueEqualsLoop beq e.length e a

/-- The loop of queue_equals when expected and actual are THE SAME Queue
object: the two dequeues of one iteration both act on the single shared
buffer, so they remove the first two elements, and the two enqueues put
them back at the end.  The final size comparison of the source trivially
holds on a single object, hence the true in the base case. -/
def queueEqualsSelfLoop (beq : α → α → Bool) :
    ℕ → List α → Option (Bool × List α)
  | 0, q => some (true, q)
  | _ + 1, [] => Option.none
  | _ + 1, [_] => Option.none
  | k + 1, x :: y :: q =>
    if !(beq x y) then some (false, q)
    else queueEqualsSelfLoop beq k (q ++ [x, y])

/-- test_utils.__queue_equals applied to one and the same Queue object
(cormen_equals(q, q)), returning the result together with the final buffer. -/
def queue_equals_self (beq : α → α → Bool) (q : List α) :
    Option (Bool × List α) :=
  queueEqualsSelfLoop beq q.length q

/-! ## Stack copy (factory_utils.copy_stack) and stack equality
(test_utils.__stack_equals)

Python source of copy_stack:

    buf = Stack()
    while not s.is_empty():
        nxt = s.pop()
        buf.push(nxt)
        buf.push(nxt)
    cpy = Stack()
    while not buf.is_empty():
        s.push(buf.pop())
        cpy.push(buf.pop())
    return cpy
-/

/-- First loop of copy_stack: drain s, pushing every element twice onto buf.
Arguments: current s, current buf (both top-at-head); returns the final buf
(s is empty when the loop exits). -/
def copyStackLoop1 : List α → List α → List α
  | [], buf => buf
  | x :: s, buf => copyStackLoop1 s (x :: x :: buf)

/-- Second loop of copy_stack: drain buf, alternating pushes onto s and cpy.
Arguments: current buf, current s, current cpy.  A buffer of odd length
would make the second pop of an iteration underflow (Option.none); this is
unreachable because the first loop always produces an even buffer. -/
def copyStackLoop2 : List α → List α → List α → Option (List α × List α)
  | [], s, cpy => some (s, cpy)
  | [_], _, _ => Option.none
  | x :: y :: buf, s, cpy => copyStackLoop2 buf (x :: s) (y :: cpy)

/-- factory_utils.copy_stack: given the buffer of s, returns (the buffer of
s after the call, the buffer of the returned copy). -/
def copy_stack (s : List α) : Option (List α × List α) :=
  copyStackLoop2 (copyStackLoop1 s []) [] []

/-- The pop-and-compare loop of __stack_equals, acting on the two copies
produced by copy_stack (the loop counter i of the source is dead code and
is omitted).  It pops until expected_cpy is empty; a pop on an empty
actual_cpy underflows (Option.none). -/
def stackPopLoop (beq : α → α → Bool) : List α → List α → Option Bool
  | [], _ => some true
  | _ :: _, [] => Option.none
  | x :: e, y :: a => if !(beq x y) then some false else stackPopLoop beq e a

/-- test_utils.__stack_equals on two distinct Stack objects, returning the
result together with the final buffers of both operands.  The source first
compares sizes, then copies each operand with copy_stack (which restores
the operand it drains), then compares the copies destructively. -/
def stack_equals (beq : α → α → Bool) (e a : List α) :
    Option (Bool × List α × List α) :=
  if e.length ≠ a.length then some (false, e, a)
  else
    match copy_stack e with
    | Option.none => Option.none
    | some (e1, ecpy) =>
      match copy_stack a with
      | Option.none => Option.none
      | some (a1, acpy) =>
        (stackPopLoop beq ecpy acpy).map (fun r => (r, e1, a1))

/-- test_utils.__stack_equals applied to one and the same Stack object
(cormen_equals(s, s)).  The size precheck trivially passes; the two
copy_stack calls run one after the other on the shared object, and the
pop loop then runs on the two (disjoint) copies. -/
def stack_equals_self (beq : α → α → Bool) (s : List α) :
    Option (Bool × List α) :=
  match copy_stack s with
  | Option.none => Option.none
  | some (s1, cpy1) =>
    match copy_stack s1 with
    | Option.none => Option.none
    | some (s2, cpy2) =>
      (stackPopLoop beq cpy1 cpy2).map (fun r => (r, s2))

/-- Each element of the input list repeated twice, in order.  Helper for
reasoning about the first loop of copy_stack. -/
def dbl : List α → List α
  | [] => []
  | x :: s => x :: x :: dbl s

/-- One left rotation of a queue buffer: the dequeued front is re-enqueued
at the back.  Helper for reasoning about the queue_equals loop. -/
def rot1 : List α → List α
  | [] => []
  | x :: s => s ++ [x]

/-- rot1 iterated n times. -/
def rotN : ℕ → List α → List α
  | 0, l => l
  | n + 1, l => rotN n (rot1 l)

/-! ## Singly linked lists (linked_lists.SinglyLinkedListNode and
test_utils.__singly_linked_list_equals)

SinglyLinkedListNode holds a data field and a next field and defines neither
an __eq__ nor a __hash__ method, so Python compares and hashes nodes by
object identity.  We therefore model a collection of node objects as a heap
of n addressed nodes; a node reference is an Option (Fin n) (Option.none is
the Python None terminating a chain), and reference identity is equality of
addresses.  Cyclic chains are representable directly.

Python source of the equality:

    def __singly_linked_list_equals(expected, actual):
        seen = set()
        while (expected is not None and actual is not None):
            if actual in seen: return False
            seen.add(actual)
            if expected != actual: return False
            expected = expected.next
            actual = actual.next
        return expected is None and actual is None

The membership test and the != test on nodes are both identity based. -/

/-- A heap of n SinglyLinkedListNode objects: the data and next fields of
the node at each address. -/
structure SLLHeap (n : ℕ) (α : Type) where
  data : Fin n → α
  next : Fin n → Option (Fin n)

/-- The loop of __singly_linked_list_equals.  seen is the set of actual
nodes visited so far; the loop terminates because every iteration inserts a
fresh address into seen, which is bounded by the heap size — exactly the
mechanism that bounds the Python loop. -/
def sllLoop (h : SLLHeap n α) (e a : Option (Fin n)) (seen : Finset (Fin n)) :
    Bool :=
  match e, a with
  | some ei, some ai =>
    if hmem : ai ∈ seen then false
    else if ei ≠ ai then false
    else sllLoop h (h.next ei) (h.next ai) (insert ai seen)
  | e, a => e.isNone && a.isNone
termination_by n - seen.card
decreasing_by
  have hcard : (insert ai seen).card = seen.card + 1 :=
    Finset.card_insert_of_not_mem hmem
  have hle : (insert ai seen).card ≤ n := by
    simpa using Finset.card_le_univ (insert ai seen)
  omega

/-- test_utils.__singly_linked_list_equals over a heap of node objects. -/
def singly_linked_list_equals (h : SLLHeap n α) (e a : Option (Fin n)) :
    Bool :=
  sllLoop h e a ∅

/-- Following the next field of a node reference (None stays None). -/
def chainNext (h : SLLHeap n α) (o : Option (Fin n)) : Option (Fin n) :=
  o.bind h.next

/-- The chain starting at o is finite (reaches None): the walk along next
terminates.  Its negation is a cyclic chain. -/
def FiniteChain (h : SLLHeap n α) (o : Option (Fin n)) : Prop :=
  ∃ k, (chainNext h)^[k] o = none

/-- Concrete counterexample heap: two distinct single-node chains carrying
equal data (node 0 and node 1, both with data 42 and next None). -/
def pairHeap : SLLHeap 2 ℤ :=
  ⟨fun _ => 42, fun _ => Option.none⟩

/-- Concrete heap with a self-referential (cyclic) node 0 and a finite
chain at node 1. -/
def cycleHeap : SLLHeap 2 ℤ :=
  ⟨fun _ => 0, fun i => if i = 0 then some 0 else Option.none⟩

/-! ## Array equality (test_utils.__array_equals and __array2d_equals)

Python source:

    def __array_equals(expected, actual):
        if expected.length() != actual.length(): return False
        for i in range(expected.length()):
            if expected[i] != actual[i]: return False
        return True

    def __array2d_equals(expected, actual):
        if expected.rows() != actual.rows() or expected.columns() != actual.columns(): return False
        for i in range(expected.rows()):
            for j in range(expected.columns()):
                if expected[i, j] != actual[i, j]: return False
        return True

Element comparison is the native Python != (modelled by negating pyEq),
NOT a recursive call into cormen_equals.  An Array is modelled as the list
of its buffer; an Array2D as the list of its rows.  Out-of-range indexing
raises IndexError in the source; here getD supplies a default that is never
consulted under the length guards / well-formedness assumptions. -/

/-- test_utils.__array_equals with Python == on elements given by pyEq. -/
def array_equals [Inhabited α] (pyEq : α → α → Bool) (e a : List α) : Bool :=
  if e.length ≠ a.length then false
  else (List.range e.length).all fun i => pyEq (e.getD i default) (a.getD i default)

/-- Array2D.columns(): the length of the first row (the source reads
len(self.__buf[0]); an Array2D always has at least one row). -/
def cols (b : List (List α)) : ℕ := (b.headD []).length

/-- test_utils.__array2d_equals with Python == on elements given by pyEq. -/
def array2d_equals [Inhabited α] (pyEq : α → α → Bool) (e a : List (List α)) :
    Bool :=
  if e.length ≠ a.length ∨ cols e ≠ cols a then false
  else (List.range e.length).all fun i =>
    (List.range (cols e)).all fun j =>
      pyEq ((e.getD i []).getD j default) ((a.getD i []).getD j default)

/-! ## Floats and the cormen_equals dispatch on float arrays (for the claim
about recursive element comparison)

Python float values are modelled as exact rationals; math.isclose with its
default arguments (rel_tol=1e-09, abs_tol=0.0) is
|a - b| <= rel_tol * max(|a|, |b|). -/

/-- The default rel_tol of math.isclose, 1e-09. -/
def relTol : ℚ := 1 / 1000000000

/-- math.isclose(a, b) with default tolerances, over exact rationals. -/
def isclose (a b : ℚ) : Bool :=
  decide (|a - b| ≤ relTol * max |a| |b|)

/-- Value domain for the float-array instance of cormen_equals: a Python
float or a DALPy Array object.  (Two distinct Array objects are never
Python-==, since Array defines no __eq__ and equality defaults to object
identity; values of this type denote distinct objects.) -/
inductive FV where
  | fl (q : ℚ)
  | arr (elems : List FV)

instance : Inhabited FV := ⟨FV.fl 0⟩

/-- Python == on FV values: exact equality on floats, object identity
(hence false between the distinct objects denoted here) on Arrays, false
between a float and an Array. -/
def pyEqFV : FV → FV → Bool
  | FV.fl x, FV.fl y => decide (x = y)
  | _, _ => false

/-- test_utils.cormen_equals restricted to the FV domain, following the
dispatch order of the source: the Array/Array branch (first in the source)
delegates to __array_equals, the float/float branch uses math.isclose, and
everything else falls back to Python ==. -/
def cormen_equalsFV : FV → FV → Bool
  | FV.arr e, FV.arr a => array_equals pyEqFV e a
  | FV.fl x, FV.fl y => isclose x y
  | f, s => pyEqFV f s

/-- Modelled from the spec: the claimed variant of cormen_equals in which
Array elements are compared recursively with the container-aware dispatch
itself (so float elements go through the isclose branch).  Used only to
compare against the source-faithful cormen_equalsFV. -/
def cormen_equalsFVSpec : FV → FV → Bool
  | FV.fl x, FV.fl y => isclose x y
  | FV.arr [], FV.arr [] => true
  | FV.arr (x :: e), FV.arr (y :: a) =>
    cormen_equalsFVSpec x y && cormen_equalsFVSpec (FV.arr e) (FV.arr a)
  | _, _ => false

/-! ## The generic_test harness (test_utils.generic_test)

Value domain for the generic_test claims: Python None, an int, an exception
class object used as a first-class value (expected may be a type; a tested
method may even return one), a DALPy Array object, and a native Python
list.  Values of container type denote distinct objects; copy.deepcopy of
such immutable model values is the value itself, which is exactly the
observable content of a deep copy.

A tested method is modelled by two functions of the pre-call argument
vector: the values of the argument objects after the call (mutation), and
either a raised exception — carried as (class index, message string) — or a
returned value.  isinstance of a raised exception against an expected class
is abstracted by a Boolean relation instOf on class indices. -/

/-- A Python value as seen by generic_test and cormen_equals. -/
inductive GV where
  | noneV
  | int (n : ℤ)
  | excCls (k : ℕ)
  | arr (elems : List GV)
  | pyList (elems : List GV)

instance : Inhabited GV := ⟨GV.noneV⟩

/-- The Python identity test result is None (the source guards the warning
with result is not None): true exactly for the None value. -/
def isNoneV : GV → Bool
  | GV.noneV => true
  | _ => false

/-- Python == on GV values: None == None, value equality on ints, object
identity on classes (two mentions of the same class are the same object)
and on Array objects (always distinct here, hence false), elementwise ==
on native lists, false across constructors. -/
def pyEqGV : GV → GV → Bool
  | GV.noneV, GV.noneV => true
  | GV.int m, GV.int n => decide (m = n)
  | GV.excCls j, GV.excCls k => decide (j = k)
  | GV.pyList [], GV.pyList [] => true
  | GV.pyList (x :: xs), GV.pyList (y :: ys) =>
    pyEqGV x y && pyEqGV (GV.pyList xs) (GV.pyList ys)
  | _, _ => false

/-- test_utils.cormen_equals restricted to the GV domain: the Array/Array
branch of the dispatch delegates to __array_equals (whose element
comparison is Python ==), and every other pair of GV values reaches the
final fallback first == second (the Queue, Stack, Set, linked list and
float branches of the source match none of these values). -/
def cormen_equalsGV (first second : GV) : Bool :=
  match first, second with
  | GV.arr e, GV.arr a => array_equals pyEqGV e a
  | f, s => pyEqGV f s

mutual

/-- test_utils.to_cormen_string restricted to the GV domain.  A native list
renders as the bracketed comma-joined renderings of its elements; an Array
renders identically via __array_to_string; str() of an int and of None are
the usual Python texts; str() of a class is its class display. -/
def to_cormen_stringGV : GV → String
  | GV.noneV => "None"
  | GV.int n => toString n
  | GV.excCls k => "<class E" ++ toString k ++ ">"
  | GV.arr elems => "[" ++ String.intercalate ", " (renderListGV elems) ++ "]"
  | GV.pyList elems => "[" ++ String.intercalate ", " (renderListGV elems) ++ "]"

/-- to_cormen_string mapped over a list of values. -/
def renderListGV : List GV → List String
  | [] => []
  | x :: xs => to_cormen_stringGV x :: renderListGV xs

end

/-- The params argument of generic_test: a single parameter or a list of
parameters. -/
def GParams := GV ⊕ List GV

/-- The argument vector the method is invoked with: method(params) for a
single parameter, method(*params) for a list. -/
def argVec : GParams → List GV
  | Sum.inl p => [p]
  | Sum.inr l => l

/-- The value of the Python variable params, given the current values of
the argument objects: the single object itself, or the Python list of the
argument objects.  (The list object always holds the current — possibly
mutated — argument objects.) -/
def paramsValue : GParams → List GV → GV
  | Sum.inl _, args => args.headD GV.noneV
  | Sum.inr _, args => GV.pyList args

/-- A method under test.  post gives the values of the argument objects
after the call (also meaningful when the call raises); ret gives the raised
(exception class, message) or the returned value.  A call cannot change the
number of its arguments. -/
structure GMethod where
  post : List GV → List GV
  ret : List GV → Except (ℕ × String) GV
  post_length : ∀ args, (post args).length = args.length

/-- The observable outcome of one generic_test call: outcome is Option.none
when the test passes and some msg when an AssertionError with message msg
is raised; warnCount counts the UnexpectedReturnWarning emissions. -/
structure GTResult where
  outcome : Option String
  warnCount : ℕ
deriving DecidableEq

/-- test_utils.__append_int.  For num > 9 the source inspects str(num)[-2],
the second-to-last decimal digit, which is the tens digit (num / 10) % 10. -/
def appendInt (num : ℕ) : String :=
  if 9 < num ∧ num / 10 % 10 = 1 then "th"
  else if num % 10 = 1 then "st"
  else if num % 10 = 2 then "nd"
  else if num % 10 = 3 then "rd"
  else "th"

/-- Modelled from the spec: the correct English ordinal suffix (1st, 2nd,
3rd, 4th, ..., 11th, 12th, 13th, 21st, ...), written the standard way via
num mod 100 and num mod 10.  Used only to compare against appendInt. -/
def ordinalSuffix (num : ℕ) : String :=
  if num % 100 = 11 ∨ num % 100 = 12 ∨ num % 100 = 13 then "th"
  else if num % 10 = 1 then "st"
  else if num % 10 = 2 then "nd"
  else if num % 10 = 3 then "rd"
  else "th"

/-- The enforce_no_mod loop of generic_test: scan the flags together with
the snapshot and the post-call arguments, returning the (0-based) position
of the first flagged argument that fails cormen_equals against its
snapshot, or Option.none when every flagged argument is unmodified.  (The
source raises the AssertionError inside the loop at that first position.
A flag vector longer than the argument vector would raise IndexError in
the source; the claims below only concern matching lengths.) -/
def noModCheck : ℕ → List Bool → List GV → List GV → Option ℕ
  | _, [], _, _ => Option.none
  | i, f :: fs, c :: cs, x :: xs =>
    if f && !(cormen_equalsGV c x) then some i
    else noModCheck (i + 1) fs cs xs
  | _, _ :: _, _, _ => Option.none

/-- test_utils.generic_test (with the default custom_comparator, i.e.
cormen_equals, and the default to_string renderers).  Follows the source
line by line:

* msg is built from the pre-call params and expected;
* params_copy = copy.deepcopy(params) as a one-or-many list — the snapshot
  is taken strictly before the invocation, so it holds the PRE-call values;
* the method is invoked; a raised exception passes iff expected is a class
  and the exception is an instance of it, otherwise the test fails with the
  exception message (and no mutation check runs);
* on a normal return with in_place set, a non-None return emits one
  UnexpectedReturnWarning and the comparison target becomes params;
* a failed cormen_equals comparison fails with the rendered output;
* finally enforce_no_mod (a single bool broadcast over the arguments, or a
  per-argument list) is checked via noModCheck, and a modified flagged
  argument fails with the ordinal message rendering the mutated params. -/
def generic_test (instOf : ℕ → ℕ → Bool) (params : GParams) (expected : GV)
    (m : GMethod) (in_place : Bool) (enforce_no_mod : Bool ⊕ List Bool) :
    GTResult :=
  let args := argVec params
  let msg := "Input: " ++ to_cormen_stringGV (paramsValue params args) ++
    "\nExpected: " ++ to_cormen_stringGV expected ++ "\n"
  let params_copy := args
  match m.ret args with
  | Except.error (k, emsg) =>
    match expected with
    | GV.excCls c =>
      if instOf k c then ⟨Option.none, 0⟩
      else ⟨some (msg ++ "Output: " ++ emsg), 0⟩
    | _ => ⟨some (msg ++ "Output: " ++ emsg), 0⟩
  | Except.ok r0 =>
    let argsPost := m.post args
    let warn : ℕ := if in_place && !(isNoneV r0) then 1 else 0
    let result := if in_place then paramsValue params argsPost else r0
    if !(cormen_equalsGV expected result) then
      ⟨some (msg ++ "Output: " ++ to_cormen_stringGV result), warn⟩
    else
      let flags := match enforce_no_mod with
        | Sum.inl b => List.replicate params_copy.length b
        | Sum.inr l => l
      let modified := to_cormen_stringGV (paramsValue params argsPost)
      match noModCheck 0 flags params_copy argsPost with
      | Option.none => ⟨Option.none, warn⟩
      | some i =>
        ⟨some (msg ++ "Output: The " ++ toString (i + 1) ++ appendInt (i + 1) ++
          " input argument should not have been modified.\nArguments: " ++
          modified), warn⟩

/-- The warning count of the normal-return branch of generic_test: one
UnexpectedReturnWarning iff in_place is set and the returned value is not
None. -/
def okWarn (in_place : Bool) (r0 : GV) : ℕ :=
  if in_place && !(isNoneV r0) then 1 else 0

/-- The outcome of the normal-return branch of generic_test, factored out
as a function of the post-call argument values and the returned value;
textually identical to the corresponding branch of generic_test. -/
def okOutcome (params : GParams) (expected : GV) (argsPost : List GV)
    (in_place : Bool) (r0 : GV) (enforce_no_mod : Bool ⊕ List Bool) :
    Option String :=
  let args := argVec params
  let msg := "Input: " ++ to_cormen_stringGV (paramsValue params args) ++
    "\nExpected: " ++ to_cormen_stringGV expected ++ "\n"
  let result := if in_place then paramsValue params argsPost else r0
  if !(cormen_equalsGV expected result) then
    some (msg ++ "Output: " ++ to_cormen_stringGV result)
  else
    let flags := match enforce_no_mod with
      | Sum.inl b => List.replicate args.length b
      | Sum.inr l => l
    let modified := to_cormen_stringGV (paramsValue params argsPost)
    match noModCheck 0 flags args argsPost with
    | Option.none => Option.none
    | some i =>
      some (msg ++ "Output: The " ++ toString (i + 1) ++ appendInt (i + 1) ++
        " input argument should not have been modified.\nArguments: " ++
        modified)

/-- A concrete method that returns the exception class object E7 itself as
a value (a normal return, no exception raised). -/
def returnClassMethod : GMethod :=
  ⟨fun args => args, fun _ => Except.ok (GV.excCls 7), fun _ => rfl⟩

/-- A concrete method that raises an exception of class E7. -/
def raiseMethod : GMethod :=
  ⟨fun args => args, fun _ => Except.error (7, "boom"), fun _ => rfl⟩

/-- A concrete method that raises an exception of class E8. -/
def raiseOtherMethod : GMethod :=
  ⟨fun args => args, fun _ => Except.error (8, "other"), fun _ => rfl⟩

/-- A concrete two-argument method that mutates only its second argument
(from [1, 2] to [1, 3]) and returns None. -/
def mutSecondMethod : GMethod where
  post args :=
    if args.length = 2 then [args.getD 0 GV.noneV, GV.arr [GV.int 1, GV.int 3]]
    else args
  ret _ := Except.ok GV.noneV
  post_length args := by by_cases h : args.length = 2 <;> simp [h]

/-- A concrete in-place method that mutates its single Array argument to
[2] and nevertheless returns the non-None value 9. -/
def inPlaceMethod : GMethod where
  post args := if args.length = 1 then [GV.arr [GV.int 2]] else args
  ret _ := Except.ok (GV.int 9)
  post_length args := by by_cases h : args.length = 1 <;> simp [h]

/-- A concrete two-argument parameter list: two Arrays both holding
[1, 2]. -/
def twoArrParams : GParams :=
  Sum.inr [GV.arr [GV.int 1, GV.int 2], GV.arr [GV.int 1, GV.int 2]]

/-! ## The result aggregator (_Watcher) and the bounded runner
(__run_timed_test / build_and_run_watched_suite)

The _Watcher is a unittest.TestResult keeping three parallel growing
lists; its constructor takes the show_tb toggle.  Python sources of the
two fallible callbacks:

    def addFailure(self, test, err) -> None:
        self.test_ids.append(_Watcher.parse_id(test.id()))
        self.results.append(0)
        tb_str = ''
        if self.show_tb:
            tb_str = '\n' + ''.join(traceback.format_tb(err[2]))
        self.details.append((_Watcher.get_description(test),
                             str(err[1]) + tb_str, _Watcher.parse_id(test.id())))

    def addError(self, test, err):
        self.test_ids.append(_Watcher.parse_id(test.id()))
        self.results.append(0)
        tb_str = ''
        if self.show_tb:
            tb_str = '\n' + ''.join(traceback.format_tb(err[2]))
        self.details.append((_Watcher.get_description(test), err[0],
                             str(err[1]) + tb_str, _Watcher.parse_id(test.id())))

The err argument is a tuple: err[0] the exception kind, err[1] the
exception value, and — when the caller passes a full sys.exc_info tuple —
err[2] the traceback.  The timeout path of __run_timed_test passes the
2-TUPLE (_TestTimeoutError, _TestTimeoutError(timeout)); reading err[2]
on it raises IndexError.  The model carries the traceback slot as an
Option String (the joined traceback rendering when present) and returns
Except: an Except.error result is the IndexError escaping the callback,
carrying the watcher state at the raise — the id and the 0 result were
already appended, the detail was not. -/

/-- A detail entry of the _Watcher: addFailure appends a
(description, message, test id) triple, addError appends a
(description, error kind, message, test id) quadruple. -/
inductive WDetail where
  | fail (desc msg tid : String)
  | err (desc kind msg tid : String)
deriving DecidableEq

/-- test_utils._Watcher: the per-batch result aggregator; show_tb is its
constructor argument toggling traceback rendering in the failure and
error callbacks. -/
structure Watcher where
  show_tb : Bool
  test_ids : List String
  results : List ℕ
  details : List WDetail
deriving DecidableEq

/-- A freshly constructed _Watcher(show_tb). -/
def emptyWatcher (show_tb : Bool) : Watcher := ⟨show_tb, [], [], []⟩

/-- The _Watcher.addSuccess callback: append the test id and the result 1. -/
def addSuccess (w : Watcher) (tid : String) : Watcher :=
  { w with test_ids := w.test_ids ++ [tid], results := w.results ++ [1] }

/-- The _Watcher.addFailure callback: append the test id and the result 0;
then, when show_tb is set, read the traceback slot err[2] — an IndexError
(Except.error with the state so far) when the tuple has none — and append
the detail triple, with the traceback rendering appended to the message
when show_tb is set. -/
def addFailure (w : Watcher) (tid desc msg : String) (tb : Option String) :
    Except Watcher Watcher :=
  let w1 := { w with
    test_ids := w.test_ids ++ [tid]
    results := w.results ++ [0] }
  if w.show_tb then
    match tb with
    | Option.none => Except.error w1
    | some t =>
      Except.ok { w1 with
        details := w1.details ++ [WDetail.fail desc (msg ++ "\n" ++ t) tid] }
  else
    Except.ok { w1 with
      details := w1.details ++ [WDetail.fail desc msg tid] }

/-- The _Watcher.addError callback: same appends and raise point as
addFailure, with the quadruple detail carrying the error kind err[0]. -/
def addError (w : Watcher) (tid desc kind msg : String) (tb : Option String) :
    Except Watcher Watcher :=
  let w1 := { w with
    test_ids := w.test_ids ++ [tid]
    results := w.results ++ [0] }
  if w.show_tb then
    match tb with
    | Option.none => Except.error w1
    | some t =>
      Except.ok { w1 with
        details := w1.details ++ [WDetail.err desc kind (msg ++ "\n" ++ t) tid] }
  else
    Except.ok { w1 with
      details := w1.details ++ [WDetail.err desc kind msg tid] }

/-- The _Watcher.print_columns renderer: the two comma-joined lines written to the
grading file — the test ids, then the 0/1 results, in recorded order. -/
def print_columns (w : Watcher) : String × String :=
  (String.intercalate "," w.test_ids,
   String.intercalate "," (w.results.map toString))

/-- One recording event reaching the watcher from a test run: exactly one
of the TestResult callbacks addSuccess, addFailure, addError.  Failures
and errors delivered by unittest carry a full sys.exc_info tuple, so the
traceback slot (tb, the joined traceback rendering) is present. -/
inductive TestEvent where
  | success (tid : String)
  | failure (tid desc msg tb : String)
  | error (tid desc kind msg tb : String)

/-- The test id an event is keyed by. -/
def eventId : TestEvent → String
  | TestEvent.success tid => tid
  | TestEvent.failure tid _ _ _ => tid
  | TestEvent.error tid _ _ _ _ => tid

/-- Whether the event records a pass. -/
def eventPassed : TestEvent → Bool
  | TestEvent.success _ => true
  | _ => false

/-- Dispatch one event to the corresponding watcher callback.  With the
traceback slot present the two fallible callbacks never reach their
IndexError; either way, the state they produced is carried on. -/
def recordEvent (w : Watcher) : TestEvent → Watcher
  | TestEvent.success tid => addSuccess w tid
  | TestEvent.failure tid desc msg tb =>
    match addFailure w tid desc msg (some tb) with
    | Except.ok w2 => w2
    | Except.error w2 => w2
  | TestEvent.error tid desc kind msg tb =>
    match addError w tid desc kind msg (some tb) with
    | Except.ok w2 => w2
    | Except.error w2 => w2

/-- A sequence of recording events applied in order. -/
def recordEvents (w : Watcher) (es : List TestEvent) : Watcher :=
  es.foldl recordEvent w

/-- The message of _TestTimeoutError(timeout). -/
def timeoutMessage (timeout : ℕ) : String :=
  "Test timed out after " ++ toString timeout ++ "s."

/-- One test of the suite, as the runner sees it.  tid and desc are the
parsed id and description used by the watcher callbacks; exceeds T tells
whether the test is still running T seconds after it started; run is what
test.run(result) does to the TestResult object it is handed (recording
exactly one outcome is the contract of a TestCase, but it is not assumed
here).  A completed execution of the candidate code is an observable side
effect; the runner state below counts completed executions. -/
structure TestModel where
  tid : String
  desc : String
  exceeds : ℕ → Bool
  run : Watcher → Watcher

/-- test_utils.__run_timed_test over a (watcher, completed-execution count)
state:

* without a timeout, the test runs once, in the parent, against the
  watcher;
* with a timeout, the test first runs in a spawned child process against a
  fresh default TestResult that is never communicated back;
  - if the test is still alive after timeout seconds the child is
    terminated (its execution never completes) and addError is invoked
    with the 2-TUPLE (_TestTimeoutError, _TestTimeoutError(timeout)) —
    no traceback slot, so with show_tb set the callback raises IndexError,
    which nothing in the runner catches: Except.error carries the aborted
    state out;
  - otherwise the parent falls through and runs the entire test AGAIN,
    with no time bound, against the real watcher — so the candidate code
    executes twice and only the second run is recorded. -/
def run_timed_test (t : TestModel) (w : Watcher) (timeout : Option ℕ)
    (execs : ℕ) : Except (Watcher × ℕ) (Watcher × ℕ) :=
  match timeout with
  | Option.none => Except.ok (t.run w, execs + 1)
  | some T =>
    if t.exceeds T then
      match addError w t.tid t.desc "_TestTimeoutError" (timeoutMessage T)
          Option.none with
      | Except.ok w2 => Except.ok (w2, execs)
      | Except.error w2 => Except.error (w2, execs)
    else
      Except.ok (t.run w, execs + 2)

/-- The test loop of build_and_run_watched_suite, from a given state: an
exception escaping __run_timed_test propagates out of the loop and aborts
the batch (the remaining tests never run, nothing more is recorded). -/
def run_suite_from (timeout : Option ℕ) :
    List TestModel → Watcher × ℕ → Except (Watcher × ℕ) (Watcher × ℕ)
  | [], s => Except.ok s
  | t :: ts, s =>
    match run_timed_test t s.1 timeout s.2 with
    | Except.ok s2 => run_suite_from timeout ts s2
    | Except.error s2 => Except.error s2

/-- The test loop of build_and_run_watched_suite: every test of the suite
is handed to __run_timed_test in order, starting from a fresh
_Watcher(show_tb). -/
def run_suite (timeout : Option ℕ) (show_tb : Bool)
    (tests : List TestModel) : Except (Watcher × ℕ) (Watcher × ℕ) :=
  run_suite_from timeout tests (emptyWatcher show_tb, 0)

/-- A concrete test that is still running whatever the timeout (and would
record a success if it ever completed). -/
def slowTest : TestModel :=
  ⟨"t1", "d1", fun _ => true, fun w => addSuccess w "t1"⟩

/-- A concrete test that finishes within any timeout and records a
success. -/
def fastTest : TestModel :=
  ⟨"t2", "d2", fun _ => false, fun w => addSuccess w "t2"⟩

/-! ## Theorems -/

/-- Each recording callback appends exactly one test id, whichever branch
of the show_tb rendering is taken. -/
theorem recordEvent_ids (w : Watcher) (e : TestEvent) :
    (recordEvent w e).test_ids = w.test_ids ++ [eventId e] := by
  cases e <;>
    cases hsb : w.show_tb <;>
      simp [recordEvent, addSuccess, addFailure, addError, eventId, hsb]

/-- Each recording callback appends exactly one 1/0 result code, whichever
branch of the show_tb rendering is taken. -/
theorem recordEvent_results (w : Watcher) (e : TestEvent) :
    (recordEvent w e).results =
      w.results ++ [if eventPassed e then 1 else 0] := by
  cases e <;>
    cases hsb : w.show_tb <;>
      simp [recordEvent, addSuccess, addFailure, addError, eventPassed, hsb]

/-- Recording events appends their ids to the watcher in arrival order. -/
theorem recordEvents_ids (es : List TestEvent) (w : Watcher) :
    (recordEvents w es).test_ids = w.test_ids ++ es.map eventId := by
  induction es generalizing w with
  | nil => simp [recordEvents]
  | cons e es ih =>
    have h := ih (recordEvent w e)
    rw [recordEvent_ids] at h
    simpa [recordEvents] using h

/-- Recording events appends their 1/0 pass codes in arrival order. -/
theorem recordEvents_results (es : List TestEvent) (w : Watcher) :
    (recordEvents w es).results =
      w.results ++ es.map (fun e => if eventPassed e then 1 else 0) := by
  induction es generalizing w with
  | nil => simp [recordEvents]
  | cons e es ih =>
    have h := ih (recordEvent w e)
    rw [recordEvent_results] at h
    simpa [recordEvents] using h

/-- C8: for every sequence of recorded outcomes (and either show_tb
setting), the watcher keeps the test ids and the 0/1 results as two lists
of the same length in arrival order (each recording callback appends
exactly one id and one code in lockstep, before any of its rendering code
can raise), and print_columns renders exactly those two comma-joined
rows: the ids, and 1 for a pass / 0 otherwise, in the same positions. -/
theorem c8_grading_columns_lockstep (sb : Bool) (es : List TestEvent) :
    (recordEvents (emptyWatcher sb) es).test_ids = es.map eventId ∧
    (recordEvents (emptyWatcher sb) es).results =
      es.map (fun e => if eventPassed e then 1 else 0) ∧
    (recordEvents (emptyWatcher sb) es).results.length =
      (recordEvents (emptyWatcher sb) es).test_ids.length ∧
    print_columns (recordEvents (emptyWatcher sb) es) =
      (String.intercalate "," (es.map eventId),
       String.intercalate ","
         (es.map (fun e => if eventPassed e then "1" else "0"))) := by
  have hids : (recordEvents (emptyWatcher sb) es).test_ids =
      es.map eventId := by
    simpa [emptyWatcher] using recordEvents_ids es (emptyWatcher sb)
  have hres : (recordEvents (emptyWatcher sb) es).results =
      es.map (fun e => if eventPassed e then 1 else 0) := by
    simpa [emptyWatcher] using recordEvents_results es (emptyWatcher sb)
  refine ⟨hids, hres, ?_, ?_⟩
  · rw [hids, hres]; simp
  · rw [print_columns, hids, hres, List.map_map]
    refine congrArg _ (congrArg _ ?_)
    refine List.map_congr_left fun e _ => ?_
    cases he : eventPassed e <;> simp [he] <;> rfl

/-- C7: evaluation of the batch runner at the failing input, the suite
[slowTest, fastTest] under a 2-second timeout where slowTest is still
running at the deadline.  With the default show_tb=False the child is
terminated, the timeout error "Test timed out after 2s." is recorded for
t1 with no partial result, fastTest still runs and is independently
reported, and the candidate code of fastTest executed twice — exactly
what the claim says.  With show_tb=True, a configuration the claim does
not exclude, the same suite ABORTS: __run_timed_test hands addError the
2-tuple err with no traceback slot, reading err[2] raises IndexError
after appending the id t1 and the result 0 but before the detail, nothing
catches it, and t2 never runs and is never reported. -/
theorem c7_timeout_show_tb_evaluation :
    run_suite (some 2) false [slowTest, fastTest] =
      Except.ok
        (⟨false, ["t1", "t2"], [0, 1],
          [WDetail.err "d1" "_TestTimeoutError" (timeoutMessage 2) "t1"]⟩,
         2) ∧
    timeoutMessage 2 = "Test timed out after " ++ toString 2 ++ "s." ∧
    run_suite (some 2) true [slowTest, fastTest] =
      Except.error (⟨true, ["t1"], [0], []⟩, 0) := by
  refine ⟨rfl, rfl, rfl⟩

/-- C10: when a timeout is configured and the child process finishes within
the deadline, the parent runs the whole test a second time with no time
bound, and only this second run reaches the watcher: the recorded state is
t.run w (the in-parent run) and the completed-execution count rises by two,
while the child result is dropped. -/
theorem c10_double_execution (t : TestModel) (T : ℕ) (w : Watcher)
    (execs : ℕ) (h : t.exceeds T = false) :
    run_timed_test t w (some T) execs = Except.ok (t.run w, execs + 2) := by
  simp [run_timed_test, h]

/-- Witness for C10 at a concrete test finishing within the deadline: the
candidate executes twice and the watcher records the in-parent run. -/
theorem c10_witness :
    run_timed_test ⟨"t1", "d1", fun _ => false, fun w => addSuccess w "t1"⟩
        (emptyWatcher false) (some 2) 0 =
      Except.ok (addSuccess (emptyWatcher false) "t1", 2) :=
  c10_double_execution
    ⟨"t1", "d1", fun _ => false, fun w => addSuccess w "t1"⟩ 2
    (emptyWatcher false) 0 rfl

/-- dbl distributes over append. -/
theorem dbl_append (s t : List α) : dbl (s ++ t) = dbl s ++ dbl t := by
  induction s with
  | nil => simp [dbl]
  | cons x s ih => simp [dbl, ih]

/-- Reversing a doubled list doubles the reversed list. -/
theorem dbl_reverse (s : List α) : (dbl s).reverse = dbl s.reverse := by
  induction s with
  | nil => simp [dbl]
  | cons x s ih => simp [dbl, dbl_append, ih]

/-- The first loop of copy_stack leaves the reversed doubled stack on buf. -/
theorem copyStackLoop1_eq (s buf : List α) :
    copyStackLoop1 s buf = (dbl s).reverse ++ buf := by
  induction s generalizing buf with
  | nil => simp [copyStackLoop1, dbl]
  | cons x s ih => simp [copyStackLoop1, dbl, ih]

/-- The second loop of copy_stack consumes a doubled block by pushing the
block back onto both accumulators. -/
theorem copyStackLoop2_dbl (u rest t c : List α) :
    copyStackLoop2 (dbl u ++ rest) t c =
      copyStackLoop2 rest (u.reverse ++ t) (u.reverse ++ c) := by
  induction u generalizing t c with
  | nil => simp [dbl]
  | cons x u ih => simp [dbl, copyStackLoop2, ih]

/-- copy_stack restores the stack it drains and returns an equal copy. -/
theorem copy_stack_eq (s : List α) : copy_stack s = some (s, s) := by
  rw [copy_stack, copyStackLoop1_eq, List.append_nil, dbl_reverse,
    ← List.append_nil (dbl s.reverse), copyStackLoop2_dbl]
  simp [copyStackLoop2]

/-- The pop loop of __stack_equals succeeds on two identical copies when
element equality is reflexive. -/
theorem stackPopLoop_refl (beq : α → α → Bool) (hrefl : ∀ x, beq x x = true)
    (l : List α) : stackPopLoop beq l l = some true := by
  induction l with
  | nil => simp [stackPopLoop]
  | cons x l ih => simp [stackPopLoop, hrefl x, ih]

/-- The pop loop of __stack_equals never underflows on copies of equal
length. -/
theorem stackPopLoop_total (beq : α → α → Bool) :
    ∀ e a : List α, e.length = a.length →
      ∃ r, stackPopLoop beq e a = some r := by
  intro e
  induction e with
  | nil => exact fun a _ => ⟨true, rfl⟩
  | cons x e ih =>
    intro a hlen
    match a with
    | y :: a =>
      by_cases hb : beq x y = true
      · obtain ⟨r, hr⟩ := ih a (by simpa using hlen)
        exact ⟨r, by simp [stackPopLoop, hb, hr]⟩
      · exact ⟨false, by simp [stackPopLoop, Bool.eq_false_iff.mpr hb]⟩

/-- Queue rotation by n steps on a buffer of length at least n moves the
first n elements to the back. -/
theorem rotN_eq (n : ℕ) (l : List α) (h : n ≤ l.length) :
    rotN n l = l.drop n ++ l.take n := by
  induction n generalizing l with
  | zero => simp [rotN]
  | succ n ih =>
    match l with
    | [] => simp at h
    | x :: t =>
      have ht : n ≤ t.length := by simpa using h
      rw [rotN, rot1, ih (t ++ [x]) (by simp; omega)]
      rw [List.drop_append_eq_append_drop, List.take_append_eq_append_take,
        Nat.sub_eq_zero_of_le ht]
      simp [List.take_cons, List.drop_succ_cons]

/-- A full rotation restores the queue buffer. -/
theorem rotN_full (l : List α) : rotN l.length l = l := by
  rw [rotN_eq _ _ le_rfl]; simp

/-- The queue_equals loop on pointwise equal distinct queues returns true
having rotated both buffers k times. -/
theorem queueEqualsLoop_forall (beq : α → α → Bool) :
    ∀ (k : ℕ) (e a : List α), (k = 0 ∨ e ≠ []) →
      List.Forall₂ (fun x y => beq x y = true) e a →
      queueEqualsLoop beq k e a = some (true, rotN k e, rotN k a) := by
  intro k
  induction k with
  | zero =>
    intro e a _ hf
    simp [queueEqualsLoop, rotN, List.Forall₂.length_eq hf]
  | succ k ih =>
    intro e a hne hf
    rcases e with _ | ⟨x, e⟩
    · simp at hne
    · cases hf with
      | cons hxy hf2 =>
        have hrec := ih (e ++ [x]) _ (Or.inr (by simp))
          (List.rel_append hf2 (List.Forall₂.cons hxy List.Forall₂.nil))
        simp [queueEqualsLoop, hxy, rotN, rot1, hrec]

/-- C1 (amended): stack comparison never changes either operand whatever
the result; stack self-comparison returns true and leaves the stack as it
was (for reflexive element equality), so it can be repeated any number of
times; and queue comparison restores both operands and returns true in the
good case, namely when the two queues are distinct objects with pointwise
equal buffers.  (The original claim fails for queues on a mid-comparison
mismatch and on self-comparison; see the counterexample.) -/
theorem c1_stack_queue_frame_amended (beq : α → α → Bool)
    (hrefl : ∀ x, beq x x = true) (e a s : List α) :
    (∃ r, stack_equals beq e a = some (r, e, a)) ∧
    stack_equals_self beq s = some (true, s) ∧
    (List.Forall₂ (fun x y => beq x y = true) e a →
      queue_equals beq e a = some (true, e, a)) := by
  refine ⟨?_, ?_, ?_⟩
  · by_cases hlen : e.length = a.length
    · obtain ⟨r, hr⟩ := stackPopLoop_total beq e a hlen
      exact ⟨r, by simp [stack_equals, hlen, copy_stack_eq, hr]⟩
    · exact ⟨false, by simp [stack_equals, hlen]⟩
  · simp [stack_equals_self, copy_stack_eq, stackPopLoop_refl beq hrefl]
  · intro hf
    have hlen := List.Forall₂.length_eq hf
    rcases List.eq_nil_or_concat e with rfl | hne
    · have : a = [] := by
        cases a with
        | nil => rfl
        | cons y a => simp at hlen
      subst this
      simp [queue_equals, queueEqualsLoop]
    · have hene : e ≠ [] := by
        obtain ⟨l, x, rfl⟩ := hne
        simp
      rw [queue_equals,
        queueEqualsLoop_forall beq e.length e a (Or.inr hene) hf,
        rotN_full, hlen, rotN_full]

/-- Counterexample for C1: comparing the distinct queues [1, 2] and [2, 1]
returns false leaving the buffers as [2] and [1] (both operands lose their
dequeued front), and cormen_equals of the queue [1, 2] with itself returns
false and empties the queue instead of returning true and preserving it. -/
theorem c1_queue_frame_counterexample :
    queue_equals (fun m n : ℤ => decide (m = n)) [1, 2] [2, 1] =
      some (false, [2], [1]) ∧
    queue_equals_self (fun m n : ℤ => decide (m = n)) [1, 2] =
      some (false, []) := by
  constructor <;> rfl

/-- Witness for C1 (amended) at concrete stacks and queues over ℤ. -/
theorem c1_stack_queue_frame_witness :
    (∃ r, stack_equals (fun m n : ℤ => decide (m = n)) [3, 4] [3, 5] =
      some (r, [3, 4], [3, 5])) ∧
    stack_equals_self (fun m n : ℤ => decide (m = n)) [7, 8] =
      some (true, [7, 8]) ∧
    queue_equals (fun m n : ℤ => decide (m = n)) [3, 4] [3, 4] =
      some (true, [3, 4], [3, 4]) := by
  have h := c1_stack_queue_frame_amended (fun m n : ℤ => decide (m = n))
    (fun x => by simp) [3, 4] [3, 5] [7, 8]
  have h2 := c1_stack_queue_frame_amended (fun m n : ℤ => decide (m = n))
    (fun x => by simp) [3, 4] [3, 4] [7, 8]
  exact ⟨h.1, h.2.1, h2.2.2 (by decide)⟩

/-- Characterization of __array_equals: true exactly when the lengths match
and the elements at every index are Python-== equal. -/
theorem array_equals_iff [Inhabited α] (pyEq : α → α → Bool) (e a : List α) :
    array_equals pyEq e a = true ↔
      (e.length = a.length ∧
        ∀ i < e.length, pyEq (e.getD i default) (a.getD i default) = true) := by
  rw [array_equals]
  by_cases h : e.length = a.length
  · simp [h, List.all_eq_true]
  · simp [h]

/-- Characterization of __array2d_equals: true exactly when the dimensions
match and the elements at every (row, column) index are Python-== equal. -/
theorem array2d_equals_iff [Inhabited α] (pyEq : α → α → Bool)
    (E A : List (List α)) :
    array2d_equals pyEq E A = true ↔
      (E.length = A.length ∧ cols E = cols A ∧
        ∀ r < E.length, ∀ c < cols E,
          pyEq ((E.getD r []).getD c default) ((A.getD r []).getD c default) =
            true) := by
  rw [array2d_equals]
  by_cases h1 : E.length = A.length
  · by_cases h2 : cols E = cols A
    · simp [h1, h2, List.all_eq_true]
    · simp [h1, h2]
  · simp [h1]

/-- Setting an index of a list changes what getD reads there. -/
theorem getD_set_self (l : List α) (i : ℕ) (v d : α) (h : i < l.length) :
    (l.set i v).getD i d = v := by
  rw [List.getD_eq_getElem?_getD, List.getElem?_set_self h]
  rfl

/-- C5 (amended): the cormen_equals dispatch sends a pair of Arrays to
__array_equals; Array and Array2D equality hold exactly when the dimensions
match and the elements at every index position are equal under the native
Python == — NOT under the recursive container-aware dispatch (see the
counterexample: a float element pair that is isclose but not ==-equal makes
the Arrays unequal) — and changing any one element of an equal pair to a
non-==-equal value flips the result to false. -/
theorem c5_array_elementwise_amended {α : Type} [Inhabited α]
    (pyEq : α → α → Bool) (e a : List α) (E A : List (List α)) (i : ℕ)
    (v : α) :
    (∀ l1 l2 : List FV,
      cormen_equalsFV (FV.arr l1) (FV.arr l2) = array_equals pyEqFV l1 l2) ∧
    (array_equals pyEq e a = true ↔
      (e.length = a.length ∧
        ∀ j < e.length, pyEq (e.getD j default) (a.getD j default) = true)) ∧
    (array2d_equals pyEq E A = true ↔
      (E.length = A.length ∧ cols E = cols A ∧
        ∀ r < E.length, ∀ c < cols E,
          pyEq ((E.getD r []).getD c default) ((A.getD r []).getD c default) =
            true)) ∧
    (array_equals pyEq e a = true → i < a.length →
      pyEq (e.getD i default) v = false →
      array_equals pyEq e (a.set i v) = false) := by
  refine ⟨fun l1 l2 => rfl, array_equals_iff pyEq e a,
    array2d_equals_iff pyEq E A, fun ht hi hv => ?_⟩
  obtain ⟨hlen, -⟩ := (array_equals_iff pyEq e a).mp ht
  rw [Bool.eq_false_iff]
  intro ht2
  obtain ⟨hlen2, hall2⟩ := (array_equals_iff pyEq e (a.set i v)).mp ht2
  have hgot := hall2 i (by rw [hlen]; exact hi)
  rw [getD_set_self a i v default hi] at hgot
  rw [hgot] at hv
  exact absurd hv (by simp)

/-- Counterexample for C5: the float values 1 and 1 + 2⁻⁴⁰ compare equal
under cormen_equals (math.isclose), yet two Arrays holding exactly these
single float elements compare UNEQUAL under cormen_equals, because
__array_equals uses the native ==, not the recursive dispatch; the
spec-modelled recursive variant deems the same two Arrays equal. -/
theorem c5_float_array_counterexample :
    cormen_equalsFV (FV.fl 1) (FV.fl (1 + 1 / 2 ^ 40)) = true ∧
    cormen_equalsFV (FV.arr [FV.fl 1]) (FV.arr [FV.fl (1 + 1 / 2 ^ 40)]) =
      false ∧
    cormen_equalsFVSpec (FV.arr [FV.fl 1]) (FV.arr [FV.fl (1 + 1 / 2 ^ 40)]) =
      true := by
  have hclose : isclose 1 (1 + 1 / 2 ^ 40) = true := by
    simp only [isclose, relTol, decide_eq_true_eq]
    rw [abs_of_nonpos (by norm_num), abs_of_nonneg (by norm_num : (0:ℚ) ≤ 1),
      abs_of_nonneg (by norm_num : (0:ℚ) ≤ 1 + 1 / 2 ^ 40),
      max_eq_right (by norm_num)]
    norm_num
  have hne : ¬ ((1 : ℚ) = 1 + 1 / 2 ^ 40) := by norm_num
  refine ⟨?_, ?_, ?_⟩
  · exact (show cormen_equalsFV (FV.fl 1) (FV.fl (1 + 1 / 2 ^ 40)) =
      isclose 1 (1 + 1 / 2 ^ 40) from rfl).trans hclose
  · rw [show cormen_equalsFV (FV.arr [FV.fl 1])
        (FV.arr [FV.fl (1 + 1 / 2 ^ 40)]) =
        array_equals pyEqFV [FV.fl 1] [FV.fl (1 + 1 / 2 ^ 40)] from rfl,
      Bool.eq_false_iff]
    intro ht2
    obtain ⟨-, hall⟩ :=
      (array_equals_iff pyEqFV [FV.fl 1] [FV.fl (1 + 1 / 2 ^ 40)]).mp ht2
    have h0 : decide ((1 : ℚ) = 1 + 1 / 2 ^ 40) = true :=
      hall 0 (by norm_num)
    exact hne (of_decide_eq_true h0)
  · have hsym : ∀ x y : ℚ, isclose x y = true →
        cormen_equalsFVSpec (FV.arr [FV.fl x]) (FV.arr [FV.fl y]) = true := by
      intro x y h
      simp [cormen_equalsFVSpec, h]
    exact hsym 1 (1 + 1 / 2 ^ 40) hclose

/-- Witness for C5 (amended) at concrete integer arrays. -/
theorem c5_array_elementwise_witness :
    array_equals (fun m n : ℤ => decide (m = n)) [1, 2] [1, 2] = true ∧
    array_equals (fun m n : ℤ => decide (m = n)) [1, 2] ([1, 2].set 1 5) =
      false := by
  have h := c5_array_elementwise_amended (fun m n : ℤ => decide (m = n))
    [1, 2] [1, 2] [[1]] [[1]] 1 5
  refine ⟨(h.2.1).mpr (by decide), h.2.2.2 ((h.2.1).mpr (by decide))
    (by decide) (by decide)⟩

/-- Iterating chainNext from None stays None. -/
theorem chainNext_iterate_none (h : SLLHeap n α) (k : ℕ) :
    (chainNext h)^[k] Option.none = Option.none :=
  Function.iterate_fixed rfl k

/-- Once the walk along next reaches None it stays None. -/
theorem chainNext_none_stable (h : SLLHeap n α) {k m : ℕ}
    {o : Option (Fin n)} (hk : (chainNext h)^[k] o = none) (hm : k ≤ m) :
    (chainNext h)^[m] o = none := by
  have : (chainNext h)^[m] o = (chainNext h)^[m - k] ((chainNext h)^[k] o) := by
    rw [← Function.iterate_add_apply]
    congr 1
    omega
  rw [this, hk]
  exact chainNext_iterate_none h (m - k)

/-- The equality loop answers true only when the two current node
references are identical (the loop compares node objects with !=, which is
reference identity). -/
theorem sllLoop_true_heads (h : SLLHeap n α) (e a : Option (Fin n))
    (seen : Finset (Fin n)) (ht : sllLoop h e a seen = true) : e = a := by
  match e, a with
  | Option.none, Option.none => rfl
  | Option.none, some ai => simp [sllLoop] at ht
  | some ei, Option.none => simp [sllLoop] at ht
  | some ei, some ai =>
    rw [sllLoop] at ht
    split_ifs at ht with hmem hne
    exact congrArg some (not_not.mp fun hc => hne hc)

/-- The equality loop answers true only when the walked chain is finite:
the seen set grows at every step, so a cycle is caught within n steps. -/
theorem sllLoop_true_finite (h : SLLHeap n α) :
    ∀ (m : ℕ) (e a : Option (Fin n)) (seen : Finset (Fin n)),
      n - seen.card ≤ m → sllLoop h e a seen = true → FiniteChain h e := by
  intro m
  induction m with
  | zero =>
    intro e a seen hm ht
    match e, a with
    | Option.none, _ => exact ⟨0, rfl⟩
    | some ei, Option.none => simp [sllLoop] at ht
    | some ei, some ai =>
      rw [sllLoop] at ht
      split_ifs at ht with hmem hne
      have hlt : seen.card < n := by
        have hcard : (insert ai seen).card = seen.card + 1 :=
          Finset.card_insert_of_not_mem hmem
        have hle : (insert ai seen).card ≤ n := by
          simpa using Finset.card_le_univ (insert ai seen)
        omega
      omega
  | succ m ih =>
    intro e a seen hm ht
    match e, a with
    | Option.none, _ => exact ⟨0, rfl⟩
    | some ei, Option.none => simp [sllLoop] at ht
    | some ei, some ai =>
      rw [sllLoop] at ht
      split_ifs at ht with hmem hne
      have hcard : (insert ai seen).card = seen.card + 1 :=
        Finset.card_insert_of_not_mem hmem
      obtain ⟨k, hk⟩ :=
        ih (h.next ei) (h.next ai) (insert ai seen) (by omega) ht
      exact ⟨k + 1, by rw [Function.iterate_succ_apply]; exact hk⟩

/-- The equality loop answers true on a pair of identical references to a
finite chain, provided no chain node is already in the seen set. -/
theorem sllLoop_finite_self_true (h : SLLHeap n α) :
    ∀ (k : ℕ) (x : Fin n) (seen : Finset (Fin n)),
      (chainNext h)^[k] (some x) = none →
      (∀ j y, (chainNext h)^[j] (some x) = some y → y ∉ seen) →
      sllLoop h (some x) (some x) seen = true := by
  intro k
  induction k with
  | zero => intro x seen hk; simp at hk
  | succ k ih =>
    intro x seen hk hseen
    have hx : x ∉ seen := hseen 0 x rfl
    have hstep : (chainNext h)^[k] (h.next x) = none := by
      have := Function.iterate_succ_apply (chainNext h) k (some x)
      rw [this] at hk
      exact hk
    rw [sllLoop]
    rw [dif_neg hx, if_neg (by simp)]
    match hnx : h.next x with
    | Option.none => simp [sllLoop]
    | some y =>
      rw [hnx] at hstep
      refine ih y (insert x seen) hstep ?_
      intro j z hz
      intro hmem2
      rcases Finset.mem_insert.mp hmem2 with hzx | hzseen
      · -- a cycle back to x would contradict the chain being finite
        have hz2 : (chainNext h)^[j] (some y) = some x := by
          rw [hzx] at hz
          exact hz
        have hcyc : (chainNext h)^[j + 1] (some x) = some x := by
          rw [Function.iterate_succ_apply]
          show (chainNext h)^[j] (h.next x) = some x
          rw [hnx]
          exact hz2
        have hfix : ∀ c, ((chainNext h)^[j + 1])^[c] (some x) = some x :=
          Function.iterate_fixed hcyc
        have hiter : (chainNext h)^[(j + 1) * (k + 2)] (some x) = some x := by
          rw [Function.iterate_mul]
          exact hfix (k + 2)
        have hnone : (chainNext h)^[(j + 1) * (k + 2)] (some x) = none :=
          chainNext_none_stable h hk (by nlinarith)
        rw [hiter] at hnone
        exact Option.noConfusion hnone
      · -- a later chain node cannot be in the original seen set
        have : (chainNext h)^[j + 1] (some x) = some z := by
          rw [Function.iterate_succ_apply]
          show (chainNext h)^[j] (h.next x) = some z
          rw [hnx]
          exact hz
        exact hseen (j + 1) z this hzseen

/-- C2 (amended): singly linked list equality under cormen_equals is by
node identity, not by data: it returns true exactly when the two head
references are the SAME node (or both None) and the chain from that node is
finite.  Two distinct chains — even with equal data in the same order —
always compare unequal (see the counterexample). -/
theorem c2_sll_identity_equality_amended (h : SLLHeap n α)
    (e a : Option (Fin n)) :
    singly_linked_list_equals h e a = true ↔ (e = a ∧ FiniteChain h e) := by
  constructor
  · intro ht
    exact ⟨sllLoop_true_heads h e a ∅ ht,
      sllLoop_true_finite h n e a ∅ (by simp) ht⟩
  · rintro ⟨rfl, ⟨k, hk⟩⟩
    match e, hk with
    | Option.none, _ => simp [singly_linked_list_equals, sllLoop]
    | some x, hk =>
      exact sllLoop_finite_self_true h k x ∅ hk
        (fun j y _ => Finset.not_mem_empty y)

/-- Counterexample for C2: in pairHeap, nodes 0 and 1 are two distinct,
finite, acyclic one-node chains holding equal data (42), yet
cormen_equals on them returns false — the comparison depends on node
identity, not on contents. -/
theorem c2_sll_identity_counterexample :
    pairHeap.data 0 = pairHeap.data 1 ∧
    pairHeap.next 0 = Option.none ∧
    pairHeap.next 1 = Option.none ∧
    singly_linked_list_equals pairHeap (some 0) (some 1) = false := by
  refine ⟨rfl, rfl, rfl, ?_⟩
  rw [singly_linked_list_equals, sllLoop]
  rw [dif_neg (Finset.not_mem_empty _)]
  rw [if_pos (by decide)]

/-- Witness for C2 (amended): a node compared with itself in pairHeap is
equal (same reference, finite chain), and the iff transports both ways. -/
theorem c2_sll_identity_witness :
    singly_linked_list_equals pairHeap (some 0) (some 0) = true :=
  (c2_sll_identity_equality_amended pairHeap (some 0) (some 0)).mpr
    ⟨rfl, 1, rfl⟩

/-- C9: singly linked list equality always returns (the seen set bounds
the loop by the heap size, which is the totality argument of sllLoop), and
comparing a cyclic chain with a finite chain — in either operand order —
returns unequal rather than looping. -/
theorem c9_sll_cycle_terminates (h : SLLHeap n α) (e a : Option (Fin n)) :
    (¬ FiniteChain h e → FiniteChain h a →
      singly_linked_list_equals h e a = false) ∧
    (FiniteChain h e → ¬ FiniteChain h a →
      singly_linked_list_equals h e a = false) := by
  constructor
  · intro hcyc hfin
    cases hb : singly_linked_list_equals h e a
    · rfl
    · exact absurd (sllLoop_true_finite h n e a ∅ (by simp) hb) hcyc
  · intro hfin hcyc
    cases hb : singly_linked_list_equals h e a
    · rfl
    · have hea := sllLoop_true_heads h e a ∅ hb
      rw [hea] at hfin
      exact absurd hfin hcyc

/-- Witness for C9: in cycleHeap, node 0 is a self-referential cycle and
node 1 a finite chain; the comparison returns false in both orders. -/
theorem c9_sll_cycle_witness :
    singly_linked_list_equals cycleHeap (some 0) (some 1) = false ∧
    singly_linked_list_equals cycleHeap (some 1) (some 0) = false := by
  have hcyc : ¬ FiniteChain cycleHeap (some 0) := by
    rintro ⟨k, hk⟩
    have hfix : (chainNext cycleHeap)^[k] (some 0) = some 0 :=
      Function.iterate_fixed (by decide) k
    rw [hfix] at hk
    exact Option.noConfusion hk
  have hfin : FiniteChain cycleHeap (some 1) := ⟨1, by decide⟩
  exact ⟨(c9_sll_cycle_terminates cycleHeap (some 0) (some 1)).1 hcyc hfin,
    (c9_sll_cycle_terminates cycleHeap (some 1) (some 0)).2 hfin hcyc⟩

/-- The __append_int helper produces the correct English ordinal suffix for every
number: the tens-digit-one test of the source covers exactly the 11/12/13
exceptions (and the other -teens already end in th). -/
theorem appendInt_eq_ordinalSuffix (num : ℕ) :
    appendInt num = ordinalSuffix num := by
  simp only [appendInt, ordinalSuffix]
  have h1 : num / 10 % 10 = num % 100 / 10 := by omega
  have h3 : num % 100 ≤ num := Nat.mod_le num 100
  rw [h1]
  split_ifs <;> first | rfl | omega

/-- The no-modification loop reports nothing when every flagged argument
still cormen-equals its snapshot. -/
theorem noModCheck_none (flags : List Bool) :
    ∀ (cs xs : List GV) (i : ℕ),
      flags.length ≤ cs.length → flags.length ≤ xs.length →
      (∀ j < flags.length, flags.getD j false = true →
        cormen_equalsGV (cs.getD j GV.noneV) (xs.getD j GV.noneV) = true) →
      noModCheck i flags cs xs = Option.none := by
  induction flags with
  | nil => intro cs xs i _ _ _; rfl
  | cons f fs ih =>
    intro cs xs i hc hx hall
    rcases cs with _ | ⟨c, cs⟩
    · simp at hc
    rcases xs with _ | ⟨x, xs⟩
    · simp at hx
    have hcond : (f && !(cormen_equalsGV c x)) = false := by
      cases hf : f
      · simp
      · have h0 : cormen_equalsGV c x = true := by
          simpa using hall 0 (by simp) (by simp [hf])
        simp [h0]
    simp only [noModCheck, hcond, Bool.false_eq_true, if_false]
    refine ih cs xs (i + 1) (by simpa using hc) (by simpa using hx) ?_
    intro j hj hf2
    simpa using hall (j + 1) (by simpa using hj) (by simpa using hf2)

/-- The no-modification loop reports the first flagged argument that fails
cormen_equals against its snapshot, at its 0-based position offset by the
running index. -/
theorem noModCheck_first (flags : List Bool) :
    ∀ (cs xs : List GV) (i j : ℕ),
      j < flags.length → flags.length ≤ cs.length → flags.length ≤ xs.length →
      flags.getD j false = true →
      cormen_equalsGV (cs.getD j GV.noneV) (xs.getD j GV.noneV) = false →
      (∀ j2 < j, flags.getD j2 false = true →
        cormen_equalsGV (cs.getD j2 GV.noneV) (xs.getD j2 GV.noneV) = true) →
      noModCheck i flags cs xs = some (i + j) := by
  induction flags with
  | nil => intro cs xs i j hj _ _ _ _ _; simp at hj
  | cons f fs ih =>
    intro cs xs i j hj hc hx hflag hbad hleast
    rcases cs with _ | ⟨c, cs⟩
    · simp at hc
    rcases xs with _ | ⟨x, xs⟩
    · simp at hx
    rcases j with _ | j
    · have hf : f = true := by simpa using hflag
      have hcx : cormen_equalsGV c x = false := by simpa using hbad
      simp [noModCheck, hf, hcx]
    · have hcond : (f && !(cormen_equalsGV c x)) = false := by
        cases hf : f
        · simp
        · have h0 : cormen_equalsGV c x = true := by
            simpa using hleast 0 (Nat.succ_pos j) (by simp [hf])
          simp [h0]
      simp only [noModCheck, hcond, Bool.false_eq_true, if_false]
      have hrec := ih cs xs (i + 1) j (by simpa using hj) (by simpa using hc)
        (by simpa using hx) (by simpa using hflag) (by simpa using hbad)
        (fun j2 hj2 hf2 => by
          simpa using hleast (j2 + 1) (by omega) (by simpa using hf2))
      rw [hrec]
      congr 1
      omega

/-- C3 (amended): with expected an exception class, a raised exception
passes exactly when it is an instance of that class, and then the whole
test returns success immediately — regardless of in_place, of the
enforce_no_mod flags and of any mutation, so the mutation checks are
short-circuited; a raised exception of a non-matching kind raises
AssertionError; and a normal return raises AssertionError UNLESS the
compared value is itself cormen-equal to the exception class object (the
class compared against itself is Python-==, so a method returning the
expected exception class makes the test pass — see the counterexample,
which is the correction to the original claim). -/
theorem c3_expected_exception_amended (instOf : ℕ → ℕ → Bool)
    (params : GParams) (c : ℕ) (m : GMethod) (in_place : Bool)
    (enf : Bool ⊕ List Bool) (k : ℕ) (emsg : String) (r : GV) :
    (m.ret (argVec params) = Except.error (k, emsg) →
      ((generic_test instOf params (GV.excCls c) m in_place enf).outcome =
        Option.none ↔ instOf k c = true)) ∧
    (m.ret (argVec params) = Except.error (k, emsg) → instOf k c = true →
      generic_test instOf params (GV.excCls c) m in_place enf =
        ⟨Option.none, 0⟩) ∧
    (m.ret (argVec params) = Except.ok r →
      cormen_equalsGV (GV.excCls c)
        (if in_place then paramsValue params (m.post (argVec params)) else r) =
        false →
      (generic_test instOf params (GV.excCls c) m in_place enf).outcome ≠
        Option.none) := by
  refine ⟨?_, ?_, ?_⟩
  · intro hret
    simp only [generic_test]
    rw [hret]
    cases hio : instOf k c <;> simp [hio]
  · intro hret hio
    simp only [generic_test]
    rw [hret]
    simp [hio]
  · intro hret hcmp
    simp only [generic_test]
    rw [hret]
    simp [hcmp]

/-- Counterexample for C3: with expected the exception class E7, a method
that RETURNS the class object E7 normally (raising nothing) makes the test
pass, where the claim requires a normal return to fail. -/
theorem c3_return_class_counterexample :
    returnClassMethod.ret [GV.int 0] = Except.ok (GV.excCls 7) ∧
    (generic_test (fun j c => decide (j = c)) (Sum.inl (GV.int 0))
      (GV.excCls 7) returnClassMethod false (Sum.inl false)).outcome =
      Option.none := by
  refine ⟨rfl, ?_⟩
  simp [generic_test, returnClassMethod, cormen_equalsGV, pyEqGV, noModCheck,
    argVec, paramsValue]

/-- Witness for C3 (amended): a raised E7 against expected class E7 passes
with every check short-circuited, a raised E8 against expected class E7
fails, and a method returning the non-matching value 5 fails. -/
theorem c3_expected_exception_witness :
    generic_test (fun j c => decide (j = c)) (Sum.inl (GV.int 0))
      (GV.excCls 7) raiseMethod true (Sum.inl true) =
      ⟨Option.none, 0⟩ ∧
    (generic_test (fun j c => decide (j = c)) (Sum.inl (GV.int 0))
      (GV.excCls 7) raiseOtherMethod false (Sum.inl false)).outcome ≠
      Option.none ∧
    (generic_test (fun j c => decide (j = c)) (Sum.inl (GV.int 0))
      (GV.excCls 7)
      ⟨fun args => args, fun _ => Except.ok (GV.int 5), fun _ => rfl⟩ false
      (Sum.inl false)).outcome ≠ Option.none := by
  have h1 := (c3_expected_exception_amended (fun j c => decide (j = c))
    (Sum.inl (GV.int 0)) 7 raiseMethod true (Sum.inl true) 7 "boom"
    GV.noneV).2.1 rfl (by decide)
  have h2 := (c3_expected_exception_amended (fun j c => decide (j = c))
    (Sum.inl (GV.int 0)) 7 raiseOtherMethod false (Sum.inl false) 8 "other"
    GV.noneV).1 rfl
  have h3 := (c3_expected_exception_amended (fun j c => decide (j = c))
    (Sum.inl (GV.int 0)) 7
    ⟨fun args => args, fun _ => Except.ok (GV.int 5), fun _ => rfl⟩ false
    (Sum.inl false) 0 "" (GV.int 5)).2.2 rfl
    (by simp [cormen_equalsGV, pyEqGV])
  refine ⟨h1, fun hc => ?_, h3⟩
  have := h2.mp hc
  simp at this

/-- On a normal return, generic_test is the factored pair of okOutcome and
okWarn. -/
theorem generic_test_ok (instOf : ℕ → ℕ → Bool) (params : GParams)
    (expected : GV) (m : GMethod) (in_place : Bool)
    (enf : Bool ⊕ List Bool) (r : GV)
    (hret : m.ret (argVec params) = Except.ok r) :
    generic_test instOf params expected m in_place enf =
      ⟨okOutcome params expected (m.post (argVec params)) in_place r enf,
        okWarn in_place r⟩ := by
  simp only [generic_test, okOutcome, okWarn]
  rw [hret]
  dsimp only
  by_cases hcond : (!(cormen_equalsGV expected
      (if in_place then paramsValue params (m.post (argVec params))
       else r))) = true
  · rw [if_pos hcond, if_pos hcond]
  · rw [if_neg hcond, if_neg hcond]
    cases hnm : noModCheck 0
        (match enf with
         | Sum.inl b => List.replicate (argVec params).length b
         | Sum.inr l => l) (argVec params) (m.post (argVec params)) with
    | none => simp only [hnm]
    | some i => simp only [hnm]

/-- okOutcome with in_place set ignores the returned value: the comparison
target is params. -/
theorem okOutcome_in_place_ret (params : GParams) (expected : GV)
    (argsPost : List GV) (r0 r1 : GV) (enf : Bool ⊕ List Bool) :
    okOutcome params expected argsPost true r0 enf =
      okOutcome params expected argsPost true r1 enf := rfl

/-- With an all-false broadcast flag, the mutation check finds nothing. -/
theorem okOutcome_no_flags (params : GParams) (expected : GV) (m : GMethod)
    (in_place : Bool) (r0 : GV) :
    okOutcome params expected (m.post (argVec params)) in_place r0
        (Sum.inl false) =
      (if !(cormen_equalsGV expected
          (if in_place then paramsValue params (m.post (argVec params))
           else r0)) then
        some ("Input: " ++
          to_cormen_stringGV (paramsValue params (argVec params)) ++
          "\nExpected: " ++ to_cormen_stringGV expected ++ "\n" ++
          "Output: " ++ to_cormen_stringGV
            (if in_place then paramsValue params (m.post (argVec params))
             else r0))
      else Option.none) := by
  have hnone : noModCheck 0
      (List.replicate (argVec params).length false) (argVec params)
      (m.post (argVec params)) = Option.none := by
    refine noModCheck_none _ (argVec params) (m.post (argVec params)) 0
      (by simp) (by simp [m.post_length]) ?_
    intro j hj hf
    rw [List.length_replicate] at hj
    rw [List.getD_eq_getElem?_getD, List.getElem?_replicate, if_pos hj] at hf
    simp at hf
  simp only [okOutcome]
  rw [hnone]

/-- C6: with in_place set and a normal return, exactly one
UnexpectedReturnWarning is emitted iff the returned value is not None; the
pass/fail outcome never depends on the returned value (only the warning
count does), so the warning alone never fails a test; and (with no
mutation flags) the test passes exactly when expected cormen-equals the
possibly mutated params — the comparison target is params, not the
returned value. -/
theorem c6_in_place_warning (instOf : ℕ → ℕ → Bool) (params : GParams)
    (expected : GV) (m : GMethod) (enf : Bool ⊕ List Bool) (r : GV)
    (hret : m.ret (argVec params) = Except.ok r) :
    ((generic_test instOf params expected m true enf).warnCount =
      if isNoneV r then 0 else 1) ∧
    (∀ (m2 : GMethod) (r2 : GV), m2.post = m.post →
      m2.ret (argVec params) = Except.ok r2 →
      (generic_test instOf params expected m2 true enf).outcome =
        (generic_test instOf params expected m true enf).outcome) ∧
    ((generic_test instOf params expected m true (Sum.inl false)).outcome =
        Option.none ↔
      cormen_equalsGV expected (paramsValue params (m.post (argVec params))) =
        true) := by
  refine ⟨?_, ?_, ?_⟩
  · rw [generic_test_ok instOf params expected m true enf r hret]
    dsimp only [okWarn]
    cases hr : isNoneV r <;> simp [hr]
  · intro m2 r2 hpost hret2
    rw [generic_test_ok instOf params expected m2 true enf r2 hret2,
      generic_test_ok instOf params expected m true enf r hret]
    dsimp only
    rw [hpost]
    exact okOutcome_in_place_ret params expected
      (m.post (argVec params)) r2 r enf
  · rw [generic_test_ok instOf params expected m true (Sum.inl false) r hret]
    dsimp only
    rw [okOutcome_no_flags params expected m true r]
    cases hcond :
      cormen_equalsGV expected (paramsValue params (m.post (argVec params)))
    · simp [hcond]
    · simp [hcond]

/-- Witness for C6 at a concrete in-place method: mutating the Array
argument from [1] to [2] and returning the non-None value 9 emits exactly
one warning, and the test passes because the mutated argument equals the
expected [2] even though the returned value does not. -/
theorem c6_in_place_witness :
    (generic_test (fun j c => decide (j = c)) (Sum.inl (GV.arr [GV.int 1]))
      (GV.arr [GV.int 2]) inPlaceMethod true (Sum.inl false)).warnCount =
      1 ∧
    (generic_test (fun j c => decide (j = c)) (Sum.inl (GV.arr [GV.int 1]))
      (GV.arr [GV.int 2]) inPlaceMethod true (Sum.inl false)).outcome =
      Option.none := by
  have h := c6_in_place_warning (fun j c => decide (j = c))
    (Sum.inl (GV.arr [GV.int 1])) (GV.arr [GV.int 2]) inPlaceMethod
    (Sum.inl false) (GV.int 9) rfl
  refine ⟨by simpa [isNoneV] using h.1, (h.2.2).mpr ?_⟩
  simp [inPlaceMethod, argVec, paramsValue, cormen_equalsGV, array_equals,
    pyEqGV, List.all_eq_true]

/-- C4: the deep snapshot compared by the mutation checks holds the
pre-call argument values; __append_int agrees with the correct English
ordinal suffix on every number; a single boolean broadcasts to one flag
per argument; and once the equality check has passed, the checks pass when
every flagged argument still cormen-equals its snapshot, while the first
flagged argument that does not raises an AssertionError naming its
1-indexed ordinal (with the correct suffix) and rendering the mutated
arguments. -/
theorem c4_mutation_guard_ordinal (instOf : ℕ → ℕ → Bool) (params : GParams)
    (expected : GV) (m : GMethod) (in_place : Bool) (b : Bool)
    (flags : List Bool) (r : GV) (j num : ℕ) :
    appendInt num = ordinalSuffix num ∧
    generic_test instOf params expected m in_place (Sum.inl b) =
      generic_test instOf params expected m in_place
        (Sum.inr (List.replicate (argVec params).length b)) ∧
    (m.ret (argVec params) = Except.ok r →
      cormen_equalsGV expected
        (if in_place then paramsValue params (m.post (argVec params)) else r)
          = true →
      flags.length ≤ (argVec params).length →
      (∀ j2 < flags.length, flags.getD j2 false = true →
        cormen_equalsGV ((argVec params).getD j2 GV.noneV)
          ((m.post (argVec params)).getD j2 GV.noneV) = true) →
      (generic_test instOf params expected m in_place
        (Sum.inr flags)).outcome = Option.none) ∧
    (m.ret (argVec params) = Except.ok r →
      cormen_equalsGV expected
        (if in_place then paramsValue params (m.post (argVec params)) else r)
          = true →
      flags.length ≤ (argVec params).length →
      j < flags.length →
      flags.getD j false = true →
      cormen_equalsGV ((argVec params).getD j GV.noneV)
        ((m.post (argVec params)).getD j GV.noneV) = false →
      (∀ j2 < j, flags.getD j2 false = true →
        cormen_equalsGV ((argVec params).getD j2 GV.noneV)
          ((m.post (argVec params)).getD j2 GV.noneV) = true) →
      (generic_test instOf params expected m in_place
        (Sum.inr flags)).outcome =
        some ("Input: " ++
          to_cormen_stringGV (paramsValue params (argVec params)) ++
          "\nExpected: " ++ to_cormen_stringGV expected ++ "\n" ++
          "Output: The " ++ toString (j + 1) ++ ordinalSuffix (j + 1) ++
          " input argument should not have been modified.\nArguments: " ++
          to_cormen_stringGV (paramsValue params (m.post (argVec params))))) := by
  refine ⟨appendInt_eq_ordinalSuffix num, rfl, ?_, ?_⟩
  · intro hret hcmp hlen hall
    rw [generic_test_ok instOf params expected m in_place (Sum.inr flags) r
      hret]
    dsimp only
    simp only [okOutcome, hcmp, Bool.not_true, Bool.false_eq_true, if_false]
    rw [noModCheck_none flags (argVec params) (m.post (argVec params)) 0 hlen
      (by rw [m.post_length]; exact hlen) hall]
  · intro hret hcmp hlen hj hflag hbad hleast
    rw [generic_test_ok instOf params expected m in_place (Sum.inr flags) r
      hret]
    dsimp only
    simp only [okOutcome, hcmp, Bool.not_true, Bool.false_eq_true, if_false]
    rw [noModCheck_first flags (argVec params) (m.post (argVec params)) 0 j
      hj hlen (by rw [m.post_length]; exact hlen) hflag hbad hleast]
    rw [Nat.zero_add]
    dsimp only
    rw [appendInt_eq_ordinalSuffix]

/-- Witness for C4 at a concrete call: two Array arguments [1, 2] and
[1, 2] with flags [False, True] and a method mutating only the second
argument to [1, 3]; the failure names the 2nd argument (ordinal suffix of
2) and renders the mutated arguments. -/
theorem c4_mutation_guard_witness :
    (generic_test (fun j c => decide (j = c)) twoArrParams GV.noneV
      mutSecondMethod false (Sum.inr [false, true])).outcome =
      some ("Input: " ++
        to_cormen_stringGV (paramsValue twoArrParams (argVec twoArrParams)) ++
        "\nExpected: " ++ to_cormen_stringGV GV.noneV ++ "\n" ++
        "Output: The " ++ toString 2 ++ ordinalSuffix 2 ++
        " input argument should not have been modified.\nArguments: " ++
        to_cormen_stringGV
          (paramsValue twoArrParams
            (mutSecondMethod.post (argVec twoArrParams)))) ∧
    ordinalSuffix 2 = "nd" := by
  have hbad : cormen_equalsGV ((argVec twoArrParams).getD 1 GV.noneV)
      ((mutSecondMethod.post (argVec twoArrParams)).getD 1 GV.noneV) =
      false := by
    show cormen_equalsGV (GV.arr [GV.int 1, GV.int 2])
      (GV.arr [GV.int 1, GV.int 3]) = false
    rw [show cormen_equalsGV (GV.arr [GV.int 1, GV.int 2])
        (GV.arr [GV.int 1, GV.int 3]) =
      array_equals pyEqGV [GV.int 1, GV.int 2] [GV.int 1, GV.int 3] from rfl]
    rw [Bool.eq_false_iff]
    intro ht
    obtain ⟨-, hall2⟩ := (array_equals_iff pyEqGV _ _).mp ht
    have h1 := hall2 1 (by norm_num)
    simp [pyEqGV] at h1
  have h := (c4_mutation_guard_ordinal (fun j c => decide (j = c))
    twoArrParams GV.noneV mutSecondMethod false false [false, true] GV.noneV
    1 2).2.2.2 rfl (by simp [cormen_equalsGV, pyEqGV])
    (by simp [twoArrParams, argVec]) (by simp) (by simp) hbad ?hleast
  case hleast =>
    intro j2 hj2 hf
    interval_cases j2
    simp at hf
  exact ⟨h, by norm_num [ordinalSuffix]⟩

end DALPy
